/-
  Verification of the cellular-automaton core of `automata.js`
  (Conway's Game of Life visualizer, two variants).

  Shallow embedding conventions:
  * the JS grid `grid[y][x]` (an array of rows of 0/1 numbers) becomes
    `Grid := List (List ℕ)`, read through `getCell g x y = (g.getD y []).getD x 0`;
  * the module-level `gridSize` becomes an explicit parameter `n`;
  * loops become folds over the same index ranges, in the same order;
  * mutation of `grid` becomes explicit grid passing (each JS function that
    writes `grid` takes the grid and returns the updated grid).
-/
import Mathlib

namespace Automata

/-- A grid is a list of rows, each row a list of cells (0 = dead, 1 = alive),
mirroring the JS array-of-arrays `grid[y][x]`. -/
abbrev Grid : Type := List (List ℕ)

/-- Read `grid[y][x]`; out-of-range reads default to 0 (the JS code always
bounds-checks before reading, so the default is never observed there). -/
def getCell (g : Grid) (x y : ℕ) : ℕ := (g.getD y []).getD x 0

/-- `g` is a well-formed `n × n` grid: `n` rows of `n` cells. -/
def WF (n : ℕ) (g : Grid) : Prop := g.length = n ∧ ∀ row ∈ g, row.length = n

/-- All cells of `g` hold 0 or 1. -/
def BinaryGrid (g : Grid) : Prop := ∀ row ∈ g, ∀ c ∈ row, c = 0 ∨ c = 1

/-- `createEmptyGrid(size)`: a `size × size` grid filled with 0. -/
def createEmptyGrid (size : ℕ) : Grid :=
  List.replicate size (List.replicate size 0)

/-- `setCellAlive(x, y)`: if `(x, y)` is inside `[0, n) × [0, n)`, set
`grid[y][x] = 1`, otherwise leave the grid unchanged.  Coordinates are
integers because callers may pass negative offsets. -/
def setCellAlive (n : ℕ) (x y : ℤ) (g : Grid) : Grid :=
  if 0 ≤ x ∧ x < n ∧ 0 ≤ y ∧ y < n then
    g.set y.toNat ((g.getD y.toNat []).set x.toNat 1)
  else g

instance (n : ℕ) (g : Grid) : Decidable (WF n g) := by
  unfold WF; infer_instance

instance (g : Grid) : Decidable (BinaryGrid g) := by
  unfold BinaryGrid; infer_instance

/-- The 8 Moore-neighborhood offsets `(dx, dy)` in the iteration order of the
JS double loop (`dy` outer from -1 to 1, `dx` inner, skipping `(0,0)`). -/
def neighborOffsets : List (ℤ × ℤ) :=
  [(-1, -1), (0, -1), (1, -1), (-1, 0), (1, 0), (-1, 1), (0, 1), (1, 1)]

/-- `countNeighbors(grid, x, y)`: sum the values of the 8 neighbors of
`(x, y)` that lie inside `[0, n) × [0, n)` (no wraparound). -/
def countNeighbors (n : ℕ) (g : Grid) (x y : ℕ) : ℕ :=
  (neighborOffsets.map (fun d =>
    let nx : ℤ := x + d.1
    let ny : ℤ := y + d.2
    if 0 ≤ nx ∧ nx < n ∧ 0 ≤ ny ∧ ny < n then getCell g nx.toNat ny.toNat else 0)).sum

/-- `nextGeneration()` (variant A, lines 59-77): build a fresh `n × n` grid
where each cell follows Conway's rule: a live cell with 2 or 3 live
neighbors stays alive, a dead cell with exactly 3 becomes alive, everything
else is dead. -/
def nextGeneration (n : ℕ) (g : Grid) : Grid :=
  (List.range n).map (fun y => (List.range n).map (fun x =>
    let neighbors := countNeighbors n g x y
    let isAlive := getCell g x y = 1
    if isAlive ∧ (neighbors = 2 ∨ neighbors = 3) then 1
    else if ¬isAlive ∧ neighbors = 3 then 1
    else 0))

/-- `nextGeneration()` of variant B (lines 459-480); the body is identical
to variant A's stepper. -/
def nextGenerationB (n : ℕ) (g : Grid) : Grid :=
  (List.range n).map (fun y => (List.range n).map (fun x =>
    let neighbors := countNeighbors n g x y
    let isAlive := getCell g x y = 1
    if isAlive ∧ (neighbors = 2 ∨ neighbors = 3) then 1
    else if ¬isAlive ∧ neighbors = 3 then 1
    else 0))

/-- Fold `setCellAlive` over a list of integer positions.  This is the
normal form shared by all the "mark cells alive" loops of the source
(`stampPattern`, `applyRipplesToGrid`): each loop is a sequence of
bounds-checked writes of 1. -/
def markList (n : ℕ) (ps : List (ℤ × ℤ)) (g : Grid) : Grid :=
  ps.foldl (fun g2 p => setCellAlive n p.1 p.2 g2) g

/-- A ripple record `{ x, y, age, maxAge }` (line 17 / `spawnRipple`). -/
structure Ripple where
  x : ℕ
  y : ℕ
  age : ℕ
  maxAge : ℕ
deriving DecidableEq

/-- `spawnRipple(x, y)`: push `{ x, y, age: 0, maxAge: 10 }` onto the
ripple array. -/
def spawnRipple (rs : List Ripple) (x y : ℕ) : List Ripple :=
  rs ++ [⟨x, y, 0, 10⟩]

/-- The ring test of `applyRipplesToGrid` at cell `(x, y)`:
the source computes `dist = Math.sqrt(dx*dx + dy*dy)` and keeps the cell when
`radius - 0.5 <= dist <= radius + 0.5`.  This branch only runs when
`radius = age >= 1`, so both bounds are nonnegative and the test is
equivalent to comparing squared distances; scaling by 4 keeps everything in
ℤ: `(2*age - 1)^2 <= 4*(dx^2 + dy^2) <= (2*age + 1)^2`.  (The float
`sqrt` cannot flip the comparison: `4*(dx^2+dy^2)` is an integer while
`(2*age ± 1)^2` is odd, so the boundary is never hit exactly, and the
correctly-rounded square root of a small integer is far closer to the true
value than the distance to the nearest boundary.) -/
def rippleRing (r : Ripple) (x y : ℕ) : Prop :=
  (2 * (r.age : ℤ) - 1) ^ 2 ≤ 4 * (((x : ℤ) - r.x) ^ 2 + ((y : ℤ) - r.y) ^ 2) ∧
  4 * (((x : ℤ) - r.x) ^ 2 + ((y : ℤ) - r.y) ^ 2) ≤ (2 * (r.age : ℤ) + 1) ^ 2

instance (r : Ripple) (x y : ℕ) : Decidable (rippleRing r x y) := by
  unfold rippleRing; infer_instance

/-- The rectangle `[minX, maxX] × [minY, maxY]` listed in the iteration
order of the nested loops (`y` outer, `x` inner). -/
def boxList (minX maxX minY maxY : ℕ) : List (ℕ × ℕ) :=
  (List.range' minY (maxY + 1 - minY)).flatMap (fun y =>
    (List.range' minX (maxX + 1 - minX)).map (fun x => (x, y)))

/-- The loop body of `applyRipplesToGrid` (lines 250-277) for one ripple
`r`: at age 0 just light the center; otherwise sweep the bounding box of
radius `age` clipped to the grid (`Math.max(0, x - radius)` is ℕ
truncated subtraction, `Math.min(gridSize - 1, x + radius)` is `min`)
and set alive every cell passing the ring test. -/
def applyRipple (n : ℕ) (g : Grid) (r : Ripple) : Grid :=
  if r.age = 0 then setCellAlive n r.x r.y g
  else
    (boxList (r.x - r.age) (min (n - 1) (r.x + r.age))
             (r.y - r.age) (min (n - 1) (r.y + r.age))).foldl
      (fun g2 p => if rippleRing r p.1 p.2 then setCellAlive n p.1 p.2 g2 else g2) g

/-- `applyRipplesToGrid()`: apply every active ripple in order. -/
def applyRipplesToGrid (n : ℕ) (rs : List Ripple) (g : Grid) : Grid :=
  rs.foldl (applyRipple n) g

/-- `updateRipples()` (lines 281-288): the source walks the array backwards,
increments each ripple's `age`, and splices out those with
`age > maxAge`; the net effect on the array is to increment every age and
drop the expired ripples, preserving the order of the survivors. -/
def updateRipples (rs : List Ripple) : List Ripple :=
  (rs.map (fun r => { r with age := r.age + 1 })).filter (fun r => r.age ≤ r.maxAge)

/-- The positions that one ripple marks alive (the conditional writes of
`applyRipple`, collected as a list). -/
def rippleMarks (n : ℕ) (r : Ripple) : List (ℤ × ℤ) :=
  if r.age = 0 then [((r.x : ℤ), (r.y : ℤ))]
  else ((boxList (r.x - r.age) (min (n - 1) (r.x + r.age))
                 (r.y - r.age) (min (n - 1) (r.y + r.age))).filter
          (fun p => decide (rippleRing r p.1 p.2))).map
         (fun p => ((p.1 : ℤ), (p.2 : ℤ)))

/-- Cell `(x, y)` is one of the cells ripple `r` forces alive this tick:
the center at age 0, the ring at age > 0. -/
def rippleMarked (r : Ripple) (x y : ℕ) : Prop :=
  (r.age = 0 ∧ x = r.x ∧ y = r.y) ∨ (0 < r.age ∧ rippleRing r x y)

instance (r : Ripple) (x y : ℕ) : Decidable (rippleMarked r x y) := by
  unfold rippleMarked; infer_instance

/-- The invariant of the ripple store: every active ripple satisfies
`age ≤ maxAge`, and `maxAge` is the fixed 10. -/
def RippleInv (rs : List Ripple) : Prop :=
  ∀ r ∈ rs, r.age ≤ r.maxAge ∧ r.maxAge = 10

instance (rs : List Ripple) : Decidable (RippleInv rs) := by
  unfold RippleInv; infer_instance

/-- The rectangle `[0, width) × [0, height)` in loop order (`y` outer). -/
def box2 (width height : ℕ) : List (ℕ × ℕ) :=
  (List.range height).flatMap (fun y => (List.range width).map (fun x => (x, y)))

/-- `stampPattern(pattern, offsetX, offsetY)` (lines 82-97): for each
pattern cell equal to `'1'`, set grid cell `(offsetX + x, offsetY + y)`
alive if it is in bounds (the bounds check is `setCellAlive`'s).  The JS
pattern rows are strings indexed by character; they become `List Char`,
with reads past the end defaulting to a non-`'1'` character. -/
def stampPattern (n : ℕ) (pat : List (List Char)) (offsetX offsetY : ℤ) (g : Grid) : Grid :=
  (box2 (pat.getD 0 []).length pat.length).foldl
    (fun g2 p =>
      if (pat.getD p.2 []).getD p.1 ' ' = '1' then
        setCellAlive n (offsetX + p.1) (offsetY + p.2) g2
      else g2) g

/-- The mutable state of variant A touched by one timed step of `loop`. -/
structure StateA where
  grid : Grid
  ripples : List Ripple

/-- One timed step of variant A's `loop` (lines 329-340): `nextGeneration()`,
then `applyRipplesToGrid()`, then `updateRipples()`; `drawGrid()` does not
change the model state. -/
def tickA (n : ℕ) (s : StateA) : StateA :=
  { grid := applyRipplesToGrid n s.ripples (nextGeneration n s.grid),
    ripples := updateRipples s.ripples }

/-- The operations that touch the ripple array: a click (`spawnRipple`) or
a generation tick (`updateRipples`). -/
inductive RippleOp where
  | spawn (x y : ℕ)
  | tick

/-- Run a sequence of ripple operations from the initial empty array. -/
def runRippleOps (ops : List RippleOp) : List Ripple :=
  ops.foldl (fun rs op =>
    match op with
    | .spawn x y => spawnRipple rs x y
    | .tick => updateRipples rs) []

/-- `randomizeGrid()` (variant B, lines 426-432) writes
`Math.random() < 0.25 ? 1 : 0` into every cell `grid[y][x]` of the `n × n`
grid; the outcome of each comparison with `Math.random()` is modelled by
the oracle `rnd`. -/
def randomizeGrid (n : ℕ) (rnd : ℕ → ℕ → Bool) : Grid :=
  (List.range n).map (fun y => (List.range n).map (fun x => if rnd x y then 1 else 0))

/-- The cell-toggling click handler of variant B (lines 579-585): if the
click maps to an in-bounds cell, replace `grid[y][x]` by
`grid[y][x] === 1 ? 0 : 1`. -/
def toggleCell (n : ℕ) (x y : ℕ) (g : Grid) : Grid :=
  if x < n ∧ y < n then
    g.set y ((g.getD y []).set x (if getCell g x y = 1 then 0 else 1))
  else g

/-- The mutable state of variant B touched by the button handlers. -/
structure StateB where
  grid : Grid
  running : Bool

/-- The `stepBtn` click handler (lines 539-543): set `running = false`,
then `nextGeneration()` (and redraw). -/
def stepBtnClick (n : ℕ) (s : StateB) : StateB :=
  { running := false, grid := nextGeneration n s.grid }

/-- The `clearBtn` click handler (lines 545-549): set `running = false`,
then replace the grid by `createEmptyGrid(gridSize)` (and redraw). -/
def clearBtnClick (n : ℕ) (_s : StateB) : StateB :=
  { running := false, grid := createEmptyGrid n }

/-- A horizontal blinker: the otherwise-empty `n × n` grid with the three
cells `(cx-1, cy), (cx, cy), (cx+1, cy)` alive. -/
def blinkerH (n cx cy : ℕ) : Grid :=
  markList n [((cx : ℤ) - 1, (cy : ℤ)), ((cx : ℤ), (cy : ℤ)), ((cx : ℤ) + 1, (cy : ℤ))]
    (createEmptyGrid n)

/-- A vertical blinker: the otherwise-empty `n × n` grid with the three
cells `(cx, cy-1), (cx, cy), (cx, cy+1)` alive. -/
def blinkerV (n cx cy : ℕ) : Grid :=
  markList n [((cx : ℤ), (cy : ℤ) - 1), ((cx : ℤ), (cy : ℤ)), ((cx : ℤ), (cy : ℤ) + 1)]
    (createEmptyGrid n)

/-! ### Basic grid lemmas -/

/-- `List.getD` after `List.set`, as a single conditional. -/
lemma getD_set_list {α : Type} (l : List α) (i j : ℕ) (v : α) (d : α) :
    (l.set i v).getD j d = if i = j ∧ i < l.length then v else l.getD j d := by
  rw [List.getD_eq_getElem?_getD, List.getElem?_set]
  by_cases h : i = j
  · subst h
    by_cases hl : i < l.length
    · rw [if_pos rfl, if_pos hl, if_pos ⟨rfl, hl⟩]
      rfl
    · rw [if_pos rfl, if_neg hl, if_neg (by tauto)]
      rw [List.getD_eq_getElem?_getD, List.getElem?_eq_none (by omega : l.length ≤ i)]
  · rw [if_neg h, if_neg (by tauto), List.getD_eq_getElem?_getD]

lemma getCell_createEmptyGrid (n x y : ℕ) : getCell (createEmptyGrid n) x y = 0 := by
  unfold getCell createEmptyGrid
  by_cases hy : y < n
  · rw [List.getD_eq_getElem _ _
      (show y < (List.replicate n (List.replicate n (0 : ℕ))).length by simp [hy])]
    rw [List.getElem_replicate]
    by_cases hx : x < n
    · rw [List.getD_eq_getElem _ _ (show x < (List.replicate n (0 : ℕ)).length by simp [hx])]
      rw [List.getElem_replicate]
    · rw [List.getD_eq_default _ _
        (show (List.replicate n (0 : ℕ)).length ≤ x by simp only [List.length_replicate]; omega)]
  · rw [List.getD_eq_default _ _
      (show (List.replicate n (List.replicate n (0 : ℕ))).length ≤ y by
        simp only [List.length_replicate]; omega)]
    simp

lemma WF_createEmptyGrid (n : ℕ) : WF n (createEmptyGrid n) := by
  constructor
  · simp [createEmptyGrid]
  · intro row hrow
    rw [List.eq_of_mem_replicate hrow]
    simp

lemma WF_row_length {n : ℕ} {g : Grid} (hg : WF n g) {y : ℕ} (hy : y < n) :
    (g.getD y []).length = n := by
  obtain ⟨hlen, hrow⟩ := hg
  have hylen : y < g.length := by omega
  rw [List.getD_eq_getElem _ _ hylen]
  exact hrow _ (List.getElem_mem hylen)

lemma getCell_eq_getElem {g : Grid} {x y : ℕ}
    (hy2 : y < g.length) (hx2 : x < g[y].length) :
    getCell g x y = g[y][x] := by
  unfold getCell
  rw [List.getD_eq_getElem _ _ hy2, List.getD_eq_getElem _ _ hx2]

/-- Two well-formed `n × n` grids agreeing on every in-bounds cell are equal. -/
lemma grid_ext {n : ℕ} {g1 g2 : Grid} (h1 : WF n g1) (h2 : WF n g2)
    (h : ∀ x y, x < n → y < n → getCell g1 x y = getCell g2 x y) : g1 = g2 := by
  have hl1 := h1.1
  have hl2 := h2.1
  apply List.ext_getElem (by omega)
  intro y hy1 hy2
  have hyn : y < n := by omega
  apply List.ext_getElem
  · rw [h1.2 _ (List.getElem_mem hy1), h2.2 _ (List.getElem_mem hy2)]
  · intro x hx1 hx2
    have hxn : x < n := by
      have := h1.2 _ (List.getElem_mem hy1); omega
    have e1 := getCell_eq_getElem hy1 hx1
    have e2 := getCell_eq_getElem hy2 hx2
    rw [← e1, ← e2]
    exact h x y hxn hyn

lemma WF_setCellAlive {n : ℕ} {g : Grid} (hg : WF n g) (x y : ℤ) :
    WF n (setCellAlive n x y g) := by
  unfold setCellAlive
  split
  · refine ⟨by rw [List.length_set]; exact hg.1, ?_⟩
    intro row hrow
    rcases List.mem_or_eq_of_mem_set hrow with h | h
    · exact hg.2 _ h
    · subst h
      rw [List.length_set]
      rename_i hb
      exact WF_row_length hg (by omega)
  · exact hg

/-- The write `setCellAlive n x y` seen through `getCell`: cell `(a, b)`
becomes 1 exactly when `(x, y) = (a, b)` is in bounds; every other cell is
untouched. -/
lemma getCell_setCellAlive {n : ℕ} {g : Grid} (hg : WF n g) (x y : ℤ) (a b : ℕ) :
    getCell (setCellAlive n x y g) a b =
      if x = (a : ℤ) ∧ y = (b : ℤ) ∧ a < n ∧ b < n then 1 else getCell g a b := by
  obtain ⟨hlen, hrows⟩ := hg
  unfold setCellAlive
  by_cases hin : 0 ≤ x ∧ x < (n : ℤ) ∧ 0 ≤ y ∧ y < (n : ℤ)
  · rw [if_pos hin]
    obtain ⟨hx0, hxn, hy0, hyn⟩ := hin
    unfold getCell
    rw [getD_set_list]
    by_cases hyb : y.toNat = b ∧ y.toNat < g.length
    · rw [if_pos hyb]
      rw [getD_set_list]
      have hrl : (g.getD y.toNat []).length = n := WF_row_length ⟨hlen, hrows⟩ (by omega)
      by_cases hxa : x.toNat = a ∧ x.toNat < (g.getD y.toNat []).length
      · rw [if_pos hxa, if_pos (show x = (a : ℤ) ∧ y = (b : ℤ) ∧ a < n ∧ b < n by
          refine ⟨by omega, by omega, by omega, by omega⟩)]
      · rw [if_neg hxa, if_neg (show ¬(x = (a : ℤ) ∧ y = (b : ℤ) ∧ a < n ∧ b < n) by omega)]
        rw [hyb.1]
    · rw [if_neg hyb, if_neg (show ¬(x = (a : ℤ) ∧ y = (b : ℤ) ∧ a < n ∧ b < n) by omega)]
  · rw [if_neg hin]
    rw [if_neg (show ¬(x = (a : ℤ) ∧ y = (b : ℤ) ∧ a < n ∧ b < n) by omega)]

/-- Setting a cell alive never turns a 1 into anything else. -/
lemma getCell_setCellAlive_mono {n : ℕ} {g : Grid} (hg : WF n g) (x y : ℤ) (a b : ℕ)
    (h : getCell g a b = 1) : getCell (setCellAlive n x y g) a b = 1 := by
  rw [getCell_setCellAlive hg]
  split <;> simp [h]

lemma WF_markList {n : ℕ} (ps : List (ℤ × ℤ)) {g : Grid} (hg : WF n g) :
    WF n (markList n ps g) := by
  induction ps generalizing g with
  | nil => exact hg
  | cons p ps ih => exact ih (WF_setCellAlive hg p.1 p.2)

/-- `markList` seen through `getCell`: a cell is 1 after the fold exactly
when it is an in-bounds listed position or was already 1. -/
lemma getCell_markList {n : ℕ} (ps : List (ℤ × ℤ)) {g : Grid} (hg : WF n g) (a b : ℕ) :
    getCell (markList n ps g) a b =
      if ((a : ℤ), (b : ℤ)) ∈ ps ∧ a < n ∧ b < n then 1 else getCell g a b := by
  induction ps generalizing g with
  | nil => simp [markList]
  | cons p ps ih =>
    show getCell (markList n ps (setCellAlive n p.1 p.2 g)) a b = _
    rw [ih (WF_setCellAlive hg p.1 p.2), getCell_setCellAlive hg]
    by_cases hb : a < n ∧ b < n
    · by_cases hmem : ((a : ℤ), (b : ℤ)) ∈ ps
      · rw [if_pos ⟨hmem, hb.1, hb.2⟩, if_pos ⟨List.mem_cons_of_mem _ hmem, hb.1, hb.2⟩]
      · rw [if_neg (by tauto)]
        by_cases hp : p.1 = (a : ℤ) ∧ p.2 = (b : ℤ)
        · have hpe : ((a : ℤ), (b : ℤ)) = p := by
            obtain ⟨p1, p2⟩ := p
            simp_all
          rw [if_pos ⟨hp.1, hp.2, hb.1, hb.2⟩,
            if_pos ⟨by rw [hpe]; exact List.mem_cons_self p ps, hb.1, hb.2⟩]
        · rw [if_neg (by tauto)]
          rw [if_neg ?_]
          intro hcon
          rcases List.mem_cons.mp hcon.1 with h | h
          · exact hp ⟨congrArg Prod.fst h.symm, congrArg Prod.snd h.symm⟩
          · exact hmem h
    · rw [if_neg (by tauto), if_neg (by tauto), if_neg (by tauto)]

/-! ### The generation stepper -/

lemma getCell_map_range (n : ℕ) (f : ℕ → ℕ → ℕ) {x y : ℕ} (hx : x < n) (hy : y < n) :
    getCell ((List.range n).map (fun b => (List.range n).map (fun a => f a b))) x y
      = f x y := by
  unfold getCell
  have h1 : ((List.range n).map (fun b => (List.range n).map (fun a => f a b))).getD y []
      = (List.range n).map (fun a => f a y) := by
    rw [List.getD_eq_getElem _ _ (show y < ((List.range n).map
      (fun b => (List.range n).map (fun a => f a b))).length by simpa using hy)]
    rw [List.getElem_map, List.getElem_range]
  rw [h1]
  rw [List.getD_eq_getElem _ _ (show x < ((List.range n).map (fun a => f a y)).length
    by simpa using hx)]
  rw [List.getElem_map, List.getElem_range]

lemma WF_map_range (n : ℕ) (f : ℕ → ℕ → ℕ) :
    WF n ((List.range n).map (fun b => (List.range n).map (fun a => f a b))) := by
  constructor
  · simp
  · intro row hrow
    simp only [List.mem_map] at hrow
    obtain ⟨b, _, rfl⟩ := hrow
    simp

lemma WF_nextGeneration (n : ℕ) (g : Grid) : WF n (nextGeneration n g) :=
  WF_map_range n _

lemma getCell_nextGeneration (n : ℕ) (g : Grid) {x y : ℕ} (hx : x < n) (hy : y < n) :
    getCell (nextGeneration n g) x y =
      if getCell g x y = 1 ∧ (countNeighbors n g x y = 2 ∨ countNeighbors n g x y = 3)
      then 1
      else if ¬getCell g x y = 1 ∧ countNeighbors n g x y = 3 then 1
      else 0 := by
  unfold nextGeneration
  rw [getCell_map_range n _ hx hy]

/-- Each cell of a binary grid reads as at most 1. -/
lemma getCell_le_one {g : Grid} (hb : BinaryGrid g) (x y : ℕ) : getCell g x y ≤ 1 := by
  unfold getCell
  by_cases hy : y < g.length
  · have hrow : g.getD y [] = g[y] := List.getD_eq_getElem _ _ hy
    rw [hrow]
    by_cases hx : x < g[y].length
    · rw [List.getD_eq_getElem _ _ hx]
      have := hb _ (List.getElem_mem hy) _ (List.getElem_mem hx)
      omega
    · rw [List.getD_eq_default _ _ (by omega)]
      omega
  · have hrow : g.getD y [] = [] := List.getD_eq_default _ _ (by omega)
    rw [hrow]
    simp

/-- A sum of 0/1 terms over a list counts the positions where the term is 1,
and is bounded by the list length. -/
lemma sum_map_binary {α : Type} (l : List α) (f : α → ℕ) (hf : ∀ a ∈ l, f a ≤ 1) :
    (l.map f).sum = (l.filter (fun a => decide (f a = 1))).length ∧
    (l.map f).sum ≤ l.length := by
  induction l with
  | nil => simp
  | cons a l ih =>
    obtain ⟨ih1, ih2⟩ := ih (fun b hb => hf b (List.mem_cons_of_mem _ hb))
    have ha := hf a (List.mem_cons_self a l)
    rcases Nat.le_one_iff_eq_zero_or_eq_one.mp ha with h | h
    · constructor
      · rw [List.map_cons, List.sum_cons, List.filter_cons, h, if_neg (by simp), ih1]
        omega
      · rw [List.map_cons, List.sum_cons, h, List.length_cons]
        omega
    · constructor
      · rw [List.map_cons, List.sum_cons, List.filter_cons, h, if_pos (by simp),
          List.length_cons, ih1]
        omega
      · rw [List.map_cons, List.sum_cons, h, List.length_cons]
        omega

/-! ### Claims C1 and C2 -/

/-- **C1**: one generation step produces a grid of the same `n × n`
dimensions in which a cell is 1 exactly when it was alive with 2 or 3 live
neighbors or dead with exactly 3 live neighbors, and 0 in every other
case; and the steppers of variants A and B are the same function. -/
theorem claim_C1_stepper (n : ℕ) (g : Grid) (_hg : WF n g) :
    WF n (nextGeneration n g) ∧
    (∀ x y, x < n → y < n →
      ((getCell (nextGeneration n g) x y = 1 ↔
        (getCell g x y = 1 ∧ (countNeighbors n g x y = 2 ∨ countNeighbors n g x y = 3)) ∨
        (getCell g x y ≠ 1 ∧ countNeighbors n g x y = 3)) ∧
       (getCell (nextGeneration n g) x y = 0 ↔
        ¬((getCell g x y = 1 ∧ (countNeighbors n g x y = 2 ∨ countNeighbors n g x y = 3)) ∨
          (getCell g x y ≠ 1 ∧ countNeighbors n g x y = 3))))) ∧
    nextGenerationB = nextGeneration := by
  refine ⟨WF_nextGeneration n g, ?_, rfl⟩
  intro x y hx hy
  rw [getCell_nextGeneration n g hx hy]
  split_ifs with h1 h2 <;> constructor <;> simp_all

/-- Witness for C1: a vertical triple in a 3×3 grid; the dead cell at
`(0, 1)` has exactly 3 live neighbors and becomes alive. -/
theorem claim_C1_stepper_witness :
    WF 3 [[0, 1, 0], [0, 1, 0], [0, 1, 0]] ∧
    getCell (nextGeneration 3 [[0, 1, 0], [0, 1, 0], [0, 1, 0]]) 0 1 = 1 := by
  have h := claim_C1_stepper 3 [[0, 1, 0], [0, 1, 0], [0, 1, 0]] (by decide)
  exact ⟨by decide, ((h.2.1 0 1 (by decide) (by decide)).1).mpr (Or.inr ⟨by decide, by decide⟩)⟩

/-- **C2**: `countNeighbors` returns the number of alive cells among the 8
surrounding positions that lie inside `[0, n) × [0, n)`; the inspected
offsets never include `(0, 0)` (the cell itself) and number exactly 8, so
the count is at most 8.  Purity (no mutation of the grid) is inherent in
the embedding: `countNeighbors` is a function of the grid. -/
theorem claim_C2_countNeighbors (n : ℕ) (g : Grid) (x y : ℕ) (hb : BinaryGrid g) :
    countNeighbors n g x y =
      (neighborOffsets.filter (fun d =>
        decide (0 ≤ (x : ℤ) + d.1 ∧ (x : ℤ) + d.1 < n ∧ 0 ≤ (y : ℤ) + d.2 ∧
          (y : ℤ) + d.2 < n ∧
          getCell g ((x : ℤ) + d.1).toNat ((y : ℤ) + d.2).toNat = 1))).length ∧
    countNeighbors n g x y ≤ 8 ∧
    (0, 0) ∉ neighborOffsets ∧
    neighborOffsets.length = 8 := by
  have hterm : ∀ d ∈ neighborOffsets,
      (fun d : ℤ × ℤ =>
        if 0 ≤ (x : ℤ) + d.1 ∧ (x : ℤ) + d.1 < n ∧ 0 ≤ (y : ℤ) + d.2 ∧ (y : ℤ) + d.2 < n
        then getCell g ((x : ℤ) + d.1).toNat ((y : ℤ) + d.2).toNat else 0) d ≤ 1 := by
    intro d _
    dsimp only
    split
    · exact getCell_le_one hb _ _
    · omega
  have hcn : countNeighbors n g x y =
      (neighborOffsets.map (fun d : ℤ × ℤ =>
        if 0 ≤ (x : ℤ) + d.1 ∧ (x : ℤ) + d.1 < n ∧ 0 ≤ (y : ℤ) + d.2 ∧ (y : ℤ) + d.2 < n
        then getCell g ((x : ℤ) + d.1).toNat ((y : ℤ) + d.2).toNat else 0)).sum := rfl
  obtain ⟨hsum, hle⟩ := sum_map_binary neighborOffsets _ hterm
  refine ⟨?_, ?_, by decide, rfl⟩
  · rw [hcn, hsum]
    apply congrArg
    apply List.filter_congr
    intro d _
    rw [decide_eq_decide]
    constructor
    · intro h
      split at h
      · rename_i hbnd
        exact ⟨hbnd.1, hbnd.2.1, hbnd.2.2.1, hbnd.2.2.2, h⟩
      · omega
    · intro h
      rw [if_pos ⟨h.1, h.2.1, h.2.2.1, h.2.2.2.1⟩]
      exact h.2.2.2.2
  · rw [hcn]
    exact hle.trans (by decide)

/-- Witness for C2: the center of a 3×3 grid with 4 alive neighbors. -/
theorem claim_C2_countNeighbors_witness :
    BinaryGrid [[0, 1, 0], [1, 1, 1], [0, 1, 0]] ∧
    countNeighbors 3 [[0, 1, 0], [1, 1, 1], [0, 1, 0]] 1 1 = 4 := by
  have h := claim_C2_countNeighbors 3 [[0, 1, 0], [1, 1, 1], [0, 1, 0]] 1 1 (by decide)
  exact ⟨by decide, by rw [h.1]; decide⟩

/-! ### Ripples -/

/-- A loop that conditionally sets cells alive is `markList` over the
positions passing the condition. -/
lemma foldl_cond_markList {α : Type} (n : ℕ) (ps : List α) (c : α → Prop)
    [DecidablePred c] (pos : α → ℤ × ℤ) (g : Grid) :
    ps.foldl (fun g2 p => if c p then setCellAlive n (pos p).1 (pos p).2 g2 else g2) g
      = markList n ((ps.filter (fun p => decide (c p))).map pos) g := by
  induction ps generalizing g with
  | nil => rfl
  | cons a ps ih =>
    simp only [List.foldl_cons, List.filter_cons]
    by_cases h : c a
    · rw [if_pos h, if_pos (by simp [h]), List.map_cons, ih]
      rfl
    · rw [if_neg h, if_neg (by simp [h]), ih]

lemma applyRipple_eq_markList (n : ℕ) (g : Grid) (r : Ripple) :
    applyRipple n g r = markList n (rippleMarks n r) g := by
  unfold applyRipple rippleMarks
  by_cases h : r.age = 0
  · rw [if_pos h, if_pos h]
    rfl
  · rw [if_neg h, if_neg h]
    exact foldl_cond_markList n _ (fun p : ℕ × ℕ => rippleRing r p.1 p.2)
      (fun p : ℕ × ℕ => ((p.1 : ℤ), (p.2 : ℤ))) g

lemma WF_applyRipple {n : ℕ} {g : Grid} (hg : WF n g) (r : Ripple) :
    WF n (applyRipple n g r) := by
  rw [applyRipple_eq_markList]
  exact WF_markList _ hg

lemma mem_boxList {minX maxX minY maxY : ℕ} {p : ℕ × ℕ} :
    p ∈ boxList minX maxX minY maxY ↔
      minX ≤ p.1 ∧ p.1 < minX + (maxX + 1 - minX) ∧
      minY ≤ p.2 ∧ p.2 < minY + (maxY + 1 - minY) := by
  obtain ⟨a, b⟩ := p
  unfold boxList
  simp only [List.mem_flatMap, List.mem_map, List.mem_range'_1, Prod.mk.injEq]
  constructor
  · rintro ⟨y, hy, x, hx, rfl, rfl⟩
    exact ⟨hx.1, hx.2, hy.1, hy.2⟩
  · rintro ⟨h1, h2, h3, h4⟩
    exact ⟨b, ⟨h3, h4⟩, a, ⟨h1, h2⟩, rfl, rfl⟩

/-- A cell passing the ring test at age `k > 0` lies inside the bounding
box of radius `k` around the ripple center. -/
lemma ring_box_bound {r : Ripple} {a b : ℕ} (hpos : 0 < r.age)
    (hring : rippleRing r a b) :
    (r.x : ℤ) - r.age ≤ a ∧ (a : ℤ) ≤ r.x + r.age ∧
    (r.y : ℤ) - r.age ≤ b ∧ (b : ℤ) ≤ r.y + r.age := by
  obtain ⟨hlo, hhi⟩ := hring
  have hA : 1 ≤ (r.age : ℤ) := by exact_mod_cast hpos
  refine ⟨?_, ?_, ?_, ?_⟩
  · nlinarith [sq_nonneg ((b : ℤ) - r.y), sq_nonneg ((a : ℤ) - r.x + r.age + 1)]
  · nlinarith [sq_nonneg ((b : ℤ) - r.y), sq_nonneg ((a : ℤ) - r.x - r.age - 1)]
  · nlinarith [sq_nonneg ((a : ℤ) - r.x), sq_nonneg ((b : ℤ) - r.y + r.age + 1)]
  · nlinarith [sq_nonneg ((a : ℤ) - r.x), sq_nonneg ((b : ℤ) - r.y - r.age - 1)]

/-- Membership in the mark list of a ripple with in-bounds center, for an
in-bounds cell: the center at age 0, the ring at positive age. -/
lemma mem_rippleMarks {n : ℕ} {r : Ripple} {a b : ℕ}
    (_hcx : r.x < n) (_hcy : r.y < n) (han : a < n) (hbn : b < n) :
    ((a : ℤ), (b : ℤ)) ∈ rippleMarks n r ↔
      (r.age = 0 ∧ a = r.x ∧ b = r.y) ∨ (0 < r.age ∧ rippleRing r a b) := by
  unfold rippleMarks
  by_cases h : r.age = 0
  · rw [if_pos h]
    simp only [List.mem_singleton, Prod.mk.injEq, Nat.cast_inj]
    constructor
    · rintro ⟨rfl, rfl⟩
      exact Or.inl ⟨h, rfl, rfl⟩
    · rintro (⟨_, rfl, rfl⟩ | ⟨hpos, _⟩)
      · exact ⟨rfl, rfl⟩
      · omega
  · rw [if_neg h]
    simp only [List.mem_map, List.mem_filter, decide_eq_true_eq]
    constructor
    · rintro ⟨p, ⟨_, hring⟩, heq⟩
      have e1 : ((p.1 : ℤ)) = a := congrArg Prod.fst heq
      have e2 : ((p.2 : ℤ)) = b := congrArg Prod.snd heq
      have hp1 : p.1 = a := by omega
      have hp2 : p.2 = b := by omega
      rw [hp1, hp2] at hring
      exact Or.inr ⟨by omega, hring⟩
    · rintro (⟨h0, _⟩ | ⟨hpos, hring⟩)
      · omega
      · refine ⟨(a, b), ⟨?_, hring⟩, rfl⟩
        rw [mem_boxList]
        have hgeo := ring_box_bound hpos hring
        refine ⟨by omega, by omega, by omega, by omega⟩

/-- `applyRipple` for an in-bounds center, seen through `getCell`. -/
lemma getCell_applyRipple {n : ℕ} {g : Grid} (hg : WF n g) (r : Ripple)
    (hcx : r.x < n) (hcy : r.y < n) {a b : ℕ} (han : a < n) (hbn : b < n) :
    getCell (applyRipple n g r) a b =
      if rippleMarked r a b then 1 else getCell g a b := by
  rw [applyRipple_eq_markList, getCell_markList _ hg]
  have hmem := mem_rippleMarks (n := n) (r := r) hcx hcy han hbn
  by_cases hm : rippleMarked r a b
  · rw [if_pos hm, if_pos ⟨hmem.mpr hm, han, hbn⟩]
  · rw [if_neg hm, if_neg (fun hc => hm (hmem.mp hc.1))]

lemma getCell_markList_mono {n : ℕ} {ps : List (ℤ × ℤ)} {g : Grid} (hg : WF n g)
    {a b : ℕ} (h : getCell g a b = 1) : getCell (markList n ps g) a b = 1 := by
  rw [getCell_markList _ hg]
  split <;> simp [h]

lemma WF_applyRipplesToGrid {n : ℕ} (rs : List Ripple) {g : Grid} (hg : WF n g) :
    WF n (applyRipplesToGrid n rs g) := by
  induction rs generalizing g with
  | nil => exact hg
  | cons r rs ih => exact ih (WF_applyRipple hg r)

lemma getCell_applyRipplesToGrid_mono {n : ℕ} (rs : List Ripple) {g : Grid}
    (hg : WF n g) {a b : ℕ} (h : getCell g a b = 1) :
    getCell (applyRipplesToGrid n rs g) a b = 1 := by
  induction rs generalizing g with
  | nil => exact h
  | cons r rs ih =>
    refine ih (WF_applyRipple hg r) ?_
    rw [applyRipple_eq_markList]
    exact getCell_markList_mono hg h

/-! ### Claims C3 and C4 -/

/-- **C3**: applying a single active ripple with in-bounds center marks
alive exactly the center cell at age 0 and, at age `k > 0`, exactly the
in-bounds cells whose Euclidean distance from the center lies in
`[k - 0.5, k + 0.5]` (the `rippleRing` test, squared and scaled by 4 to
stay in ℤ); every unmarked cell keeps its value, and no cell is ever set
dead. -/
theorem claim_C3_ripple_marks (n : ℕ) (g : Grid) (r : Ripple) (hg : WF n g)
    (hcx : r.x < n) (hcy : r.y < n) (x y : ℕ) (hx : x < n) (hy : y < n) :
    (getCell g x y = 1 → getCell (applyRipplesToGrid n [r] g) x y = 1) ∧
    (r.age = 0 →
      (getCell (applyRipplesToGrid n [r] g) x y = 1 ↔
        getCell g x y = 1 ∨ (x = r.x ∧ y = r.y))) ∧
    (0 < r.age →
      (getCell (applyRipplesToGrid n [r] g) x y = 1 ↔
        getCell g x y = 1 ∨ rippleRing r x y)) ∧
    (¬rippleMarked r x y → getCell (applyRipplesToGrid n [r] g) x y = getCell g x y) := by
  have hc : getCell (applyRipplesToGrid n [r] g) x y =
      if rippleMarked r x y then 1 else getCell g x y :=
    getCell_applyRipple hg r hcx hcy hx hy
  refine ⟨?_, ?_, ?_, ?_⟩
  · intro h1
    rw [hc]
    split_ifs <;> simp [h1]
  · intro h0
    rw [hc]
    unfold rippleMarked
    split_ifs with hm
    · constructor
      · intro _
        rcases hm with ⟨_, h2⟩ | ⟨hpos, _⟩
        · exact Or.inr h2
        · omega
      · intro _
        rfl
    · constructor
      · exact Or.inl
      · rintro (h1 | h2)
        · exact h1
        · exact absurd (Or.inl ⟨h0, h2⟩) hm
  · intro hpos
    rw [hc]
    unfold rippleMarked
    split_ifs with hm
    · constructor
      · intro _
        rcases hm with ⟨h0, _⟩ | ⟨_, h2⟩
        · omega
        · exact Or.inr h2
      · intro _
        rfl
    · constructor
      · exact Or.inl
      · rintro (h1 | h2)
        · exact h1
        · exact absurd (Or.inr ⟨hpos, h2⟩) hm
  · intro hnm
    rw [hc, if_neg hnm]

/-- Witness for C3: a ripple of age 2 centered at `(3, 3)` in a 7×7 empty
grid lights the ring cell `(1, 3)` (distance 2) but not `(2, 3)`
(distance 1). -/
theorem claim_C3_ripple_marks_witness :
    WF 7 (createEmptyGrid 7) ∧
    getCell (applyRipplesToGrid 7 [⟨3, 3, 2, 10⟩] (createEmptyGrid 7)) 1 3 = 1 ∧
    getCell (applyRipplesToGrid 7 [⟨3, 3, 2, 10⟩] (createEmptyGrid 7)) 2 3 = 0 := by
  have h1 := claim_C3_ripple_marks 7 (createEmptyGrid 7) ⟨3, 3, 2, 10⟩ (by decide)
    (by decide) (by decide) 1 3 (by decide) (by decide)
  have h2 := claim_C3_ripple_marks 7 (createEmptyGrid 7) ⟨3, 3, 2, 10⟩ (by decide)
    (by decide) (by decide) 2 3 (by decide) (by decide)
  refine ⟨by decide, ?_, ?_⟩
  · exact (h1.2.2.1 (by decide)).mpr (Or.inr (by decide))
  · rw [h2.2.2.2 (by decide)]
    decide

/-- Membership in `updateRipples rs`: the survivors are exactly the
age-incremented ripples of `rs` that still satisfy `age ≤ maxAge`. -/
lemma mem_updateRipples {rs : List Ripple} {r2 : Ripple} :
    r2 ∈ updateRipples rs ↔
      (∃ r ∈ rs, r2 = { r with age := r.age + 1 }) ∧ r2.age ≤ r2.maxAge := by
  unfold updateRipples
  rw [List.mem_filter, List.mem_map]
  simp only [decide_eq_true_eq]
  constructor
  · rintro ⟨⟨r, hr, heq⟩, hle⟩
    exact ⟨⟨r, hr, heq.symm⟩, hle⟩
  · rintro ⟨⟨r, hr, heq⟩, hle⟩
    exact ⟨⟨r, hr, heq.symm⟩, hle⟩

lemma rippleInv_step (rs : List Ripple) (op : RippleOp) (hinv : RippleInv rs) :
    RippleInv (match op with
      | RippleOp.spawn x y => spawnRipple rs x y
      | RippleOp.tick => updateRipples rs) := by
  cases op with
  | spawn x y =>
    intro r hr
    rcases List.mem_append.mp hr with h | h
    · exact hinv r h
    · rw [List.mem_singleton.mp h]
      exact ⟨Nat.zero_le _, rfl⟩
  | tick =>
    intro r2 hr2
    obtain ⟨⟨r, hr, rfl⟩, hle⟩ := mem_updateRipples.mp hr2
    exact ⟨hle, (hinv r hr).2⟩

lemma rippleInv_foldl (ops : List RippleOp) :
    ∀ rs, RippleInv rs →
      RippleInv (ops.foldl (fun rs op =>
        match op with
        | RippleOp.spawn x y => spawnRipple rs x y
        | RippleOp.tick => updateRipples rs) rs) := by
  induction ops with
  | nil => exact fun rs h => h
  | cons op ops ih =>
    intro rs hinv
    exact ih _ (rippleInv_step rs op hinv)

/-- **C4**: ripples spawn with `age = 0`, `maxAge = 10`; `updateRipples`
increments each age by exactly 1 and keeps only ripples with
`age ≤ maxAge` (an expired ripple is removed in the same update that
incremented it); the invariant `age ≤ maxAge` (with `maxAge = 10`) holds
after any sequence of spawn/tick operations starting from the empty set. -/
theorem claim_C4_ripple_ages :
    (∀ rs x y, spawnRipple rs x y = rs ++ [{ x := x, y := y, age := 0, maxAge := 10 }]) ∧
    (∀ rs r2, r2 ∈ updateRipples rs →
      (∃ r ∈ rs, r2.age = r.age + 1 ∧ r2.maxAge = r.maxAge) ∧ r2.age ≤ r2.maxAge) ∧
    (∀ rs r, r ∈ rs → r.maxAge < r.age + 1 →
      { r with age := r.age + 1 } ∉ updateRipples rs) ∧
    (∀ ops, RippleInv (runRippleOps ops)) := by
  refine ⟨fun _ _ _ => rfl, ?_, ?_, ?_⟩
  · intro rs r2 h
    obtain ⟨⟨r, hr, rfl⟩, hle⟩ := mem_updateRipples.mp h
    exact ⟨⟨r, hr, rfl, rfl⟩, hle⟩
  · intro rs r _ hexp hmem
    have h := (mem_updateRipples.mp hmem).2
    simp only at h
    omega
  · intro ops
    exact rippleInv_foldl ops [] (fun r hr => absurd hr (List.not_mem_nil r))

/-- Witness for C4: spawning at `(2, 5)` then ticking twice leaves one
ripple of age 2; eleven ticks after a spawn leave none. -/
theorem claim_C4_ripple_ages_witness :
    ({ x := 2, y := 5, age := 2, maxAge := 10 } : Ripple) ∈
      runRippleOps [RippleOp.spawn 2 5, RippleOp.tick, RippleOp.tick] ∧
    RippleInv (runRippleOps [RippleOp.spawn 2 5, RippleOp.tick, RippleOp.tick]) := by
  have h := claim_C4_ripple_ages
  exact ⟨by decide, h.2.2.2 [RippleOp.spawn 2 5, RippleOp.tick, RippleOp.tick]⟩

/-! ### Order independence of ripple application (C7) and tick ordering (C5) -/

lemma markList_comm {n : ℕ} (ps qs : List (ℤ × ℤ)) {g : Grid} (hg : WF n g) :
    markList n ps (markList n qs g) = markList n qs (markList n ps g) := by
  apply grid_ext (WF_markList ps (WF_markList qs hg)) (WF_markList qs (WF_markList ps hg))
  intro x y hx hy
  rw [getCell_markList _ (WF_markList qs hg), getCell_markList _ hg,
    getCell_markList _ (WF_markList ps hg), getCell_markList _ hg]
  split_ifs <;> rfl

lemma markList_idem {n : ℕ} (ps : List (ℤ × ℤ)) {g : Grid} (hg : WF n g) :
    markList n ps (markList n ps g) = markList n ps g := by
  apply grid_ext (WF_markList ps (WF_markList ps hg)) (WF_markList ps hg)
  intro x y hx hy
  rw [getCell_markList _ (WF_markList ps hg), getCell_markList _ hg]
  split_ifs <;> rfl

lemma applyRipple_comm {n : ℕ} {g : Grid} (hg : WF n g) (r1 r2 : Ripple) :
    applyRipple n (applyRipple n g r1) r2 = applyRipple n (applyRipple n g r2) r1 := by
  simp only [applyRipple_eq_markList]
  exact markList_comm _ _ hg

lemma applyRipplesToGrid_perm {n : ℕ} {rs rs2 : List Ripple} (hp : rs.Perm rs2) :
    ∀ g : Grid, WF n g → applyRipplesToGrid n rs g = applyRipplesToGrid n rs2 g := by
  induction hp with
  | nil => exact fun g _ => rfl
  | cons r p ih =>
    intro g hg
    show applyRipplesToGrid n _ (applyRipple n g r) = applyRipplesToGrid n _ (applyRipple n g r)
    exact ih _ (WF_applyRipple hg r)
  | swap r1 r2 l =>
    intro g hg
    show applyRipplesToGrid n l (applyRipple n (applyRipple n g r2) r1)
      = applyRipplesToGrid n l (applyRipple n (applyRipple n g r1) r2)
    rw [applyRipple_comm hg r2 r1]
  | trans p1 p2 ih1 ih2 =>
    intro g hg
    rw [ih1 g hg, ih2 g hg]

/-- **C7**: the grid produced by applying a set of ripples does not depend
on the order of application — any permutation of the ripple list yields
the same grid; moreover per-ripple application commutes and is idempotent
(set-to-alive is an idempotent, commutative update). -/
theorem claim_C7_ripple_order_irrelevant (n : ℕ) (g : Grid) (hg : WF n g)
    (rs rs2 : List Ripple) (hp : rs.Perm rs2) :
    applyRipplesToGrid n rs g = applyRipplesToGrid n rs2 g ∧
    (∀ r1 r2, applyRipple n (applyRipple n g r1) r2 = applyRipple n (applyRipple n g r2) r1) ∧
    (∀ r, applyRipple n (applyRipple n g r) r = applyRipple n g r) := by
  refine ⟨applyRipplesToGrid_perm hp g hg, applyRipple_comm hg, ?_⟩
  intro r
  simp only [applyRipple_eq_markList]
  exact markList_idem _ hg

/-- Witness for C7: two ripples applied to a 5×5 empty grid in both
orders. -/
theorem claim_C7_ripple_order_irrelevant_witness :
    WF 5 (createEmptyGrid 5) ∧
    ([(⟨1, 1, 0, 10⟩ : Ripple), ⟨3, 3, 1, 10⟩].Perm [⟨3, 3, 1, 10⟩, ⟨1, 1, 0, 10⟩]) ∧
    applyRipplesToGrid 5 [⟨1, 1, 0, 10⟩, ⟨3, 3, 1, 10⟩] (createEmptyGrid 5)
      = applyRipplesToGrid 5 [⟨3, 3, 1, 10⟩, ⟨1, 1, 0, 10⟩] (createEmptyGrid 5) := by
  have h := claim_C7_ripple_order_irrelevant 5 (createEmptyGrid 5) (by decide)
    [⟨1, 1, 0, 10⟩, ⟨3, 3, 1, 10⟩] [⟨3, 3, 1, 10⟩, ⟨1, 1, 0, 10⟩] (by decide)
  exact ⟨by decide, by decide, h.1⟩

/-- **C5**: in one timed step of variant A's loop, the ripple ring cells
are injected into the grid after this tick's `nextGeneration()` and hence
before the next tick's `nextGeneration()` reads the grid: the grid stored
by the tick is `applyRipplesToGrid` of the stepped grid, and every cell
forced by an active in-bounds ripple is alive in it. -/
theorem claim_C5_ripples_feed_next_step (n : ℕ) (s : StateA) :
    (tickA n s).grid = applyRipplesToGrid n s.ripples (nextGeneration n s.grid) ∧
    (∀ r ∈ s.ripples, r.x < n → r.y < n → ∀ x y, x < n → y < n →
      rippleMarked r x y → getCell (tickA n s).grid x y = 1) ∧
    (tickA n s).ripples = updateRipples s.ripples := by
  refine ⟨rfl, ?_, rfl⟩
  intro r hr hrx hry x y hx hy hm
  obtain ⟨l1, l2, heq⟩ := List.append_of_mem hr
  show getCell (applyRipplesToGrid n s.ripples (nextGeneration n s.grid)) x y = 1
  rw [heq]
  show getCell (List.foldl (applyRipple n) (nextGeneration n s.grid) (l1 ++ r :: l2)) x y = 1
  rw [List.foldl_append, List.foldl_cons]
  have hg1 : WF n (applyRipplesToGrid n l1 (nextGeneration n s.grid)) :=
    WF_applyRipplesToGrid l1 (WF_nextGeneration n s.grid)
  apply getCell_applyRipplesToGrid_mono l2 (WF_applyRipple hg1 r)
  rw [getCell_applyRipple hg1 r hrx hry hx hy, if_pos hm]

/-- Witness for C5: a single age-0 ripple at `(2, 2)` in a 5×5 state. -/
theorem claim_C5_ripples_feed_next_step_witness :
    getCell (tickA 5 ⟨createEmptyGrid 5, [⟨2, 2, 0, 10⟩]⟩).grid 2 2 = 1 := by
  have h := claim_C5_ripples_feed_next_step 5 ⟨createEmptyGrid 5, [⟨2, 2, 0, 10⟩]⟩
  exact h.2.1 ⟨2, 2, 0, 10⟩ (by decide) (by decide) (by decide) 2 2 (by decide) (by decide)
    (by decide)

/-! ### Pattern stamping (C6) -/

lemma mem_box2 {w h : ℕ} {p : ℕ × ℕ} : p ∈ box2 w h ↔ p.1 < w ∧ p.2 < h := by
  obtain ⟨a, b⟩ := p
  unfold box2
  simp only [List.mem_flatMap, List.mem_map, List.mem_range, Prod.mk.injEq]
  constructor
  · rintro ⟨y, hy, x, hx, rfl, rfl⟩
    exact ⟨hx, hy⟩
  · rintro ⟨h1, h2⟩
    exact ⟨b, h2, a, h1, rfl, rfl⟩

lemma stampPattern_eq_markList (n : ℕ) (pat : List (List Char)) (ox oy : ℤ) (g : Grid) :
    stampPattern n pat ox oy g =
      markList n (((box2 (pat.getD 0 []).length pat.length).filter
        (fun p => decide ((pat.getD p.2 []).getD p.1 ' ' = '1'))).map
        (fun p => (ox + (p.1 : ℤ), oy + (p.2 : ℤ)))) g := by
  unfold stampPattern
  exact foldl_cond_markList n _ (fun p : ℕ × ℕ => (pat.getD p.2 []).getD p.1 ' ' = '1')
    (fun p : ℕ × ℕ => (ox + (p.1 : ℤ), oy + (p.2 : ℤ))) g

/-- Membership in the stamp mark list, unfolded to the existence of a
pattern cell marked `'1'` that the offset maps onto `(a, b)`. -/
lemma mem_stampMarks {pat : List (List Char)} {ox oy : ℤ} {a b : ℕ} :
    ((a : ℤ), (b : ℤ)) ∈ ((box2 (pat.getD 0 []).length pat.length).filter
        (fun p => decide ((pat.getD p.2 []).getD p.1 ' ' = '1'))).map
        (fun p => (ox + (p.1 : ℤ), oy + (p.2 : ℤ))) ↔
      ∃ px py, px < (pat.getD 0 []).length ∧ py < pat.length ∧
        (pat.getD py []).getD px ' ' = '1' ∧
        (a : ℤ) = ox + px ∧ (b : ℤ) = oy + py := by
  simp only [List.mem_map, List.mem_filter, decide_eq_true_eq, mem_box2]
  constructor
  · rintro ⟨p, ⟨⟨h1, h2⟩, h3⟩, heq⟩
    have e1 : ox + (p.1 : ℤ) = a := congrArg Prod.fst heq
    have e2 : oy + (p.2 : ℤ) = b := congrArg Prod.snd heq
    exact ⟨p.1, p.2, h1, h2, h3, e1.symm, e2.symm⟩
  · rintro ⟨px, py, h1, h2, h3, h4, h5⟩
    exact ⟨(px, py), ⟨⟨h1, h2⟩, h3⟩, by rw [← h4, ← h5]⟩

/-- **C6**: stamping sets to alive exactly the in-bounds grid cells that
the pattern marks `'1'` (pattern cells falling out of bounds are silently
skipped), and leaves every other cell — cells the pattern marks dead and
all cells outside the stamp — unchanged. -/
theorem claim_C6_stamp_additive (n : ℕ) (pat : List (List Char)) (ox oy : ℤ)
    (g : Grid) (hg : WF n g) :
    WF n (stampPattern n pat ox oy g) ∧
    (∀ x y, x < n → y < n →
      (getCell (stampPattern n pat ox oy g) x y = 1 ↔
        getCell g x y = 1 ∨
        ∃ px py, px < (pat.getD 0 []).length ∧ py < pat.length ∧
          (pat.getD py []).getD px ' ' = '1' ∧
          (x : ℤ) = ox + px ∧ (y : ℤ) = oy + py)) ∧
    (∀ x y : ℕ, (¬∃ px py, px < (pat.getD 0 []).length ∧ py < pat.length ∧
          (pat.getD py []).getD px ' ' = '1' ∧
          (x : ℤ) = ox + px ∧ (y : ℤ) = oy + py) →
      getCell (stampPattern n pat ox oy g) x y = getCell g x y) := by
  rw [stampPattern_eq_markList]
  refine ⟨WF_markList _ hg, ?_, ?_⟩
  · intro x y hx hy
    rw [getCell_markList _ hg]
    by_cases hm : ((x : ℤ), (y : ℤ)) ∈ ((box2 (pat.getD 0 []).length pat.length).filter
        (fun p => decide ((pat.getD p.2 []).getD p.1 ' ' = '1'))).map
        (fun p => (ox + (p.1 : ℤ), oy + (p.2 : ℤ)))
    · rw [if_pos ⟨hm, hx, hy⟩]
      constructor
      · intro _
        exact Or.inr (mem_stampMarks.mp hm)
      · intro _
        rfl
    · rw [if_neg (fun hc => hm hc.1)]
      constructor
      · exact Or.inl
      · rintro (h1 | h2)
        · exact h1
        · exact absurd (mem_stampMarks.mpr h2) hm
  · intro x y hne
    rw [getCell_markList _ hg, if_neg (fun hc => hne (mem_stampMarks.mp hc.1))]

/-- Witness for C6: stamping a 2×1 pattern `"10"` at offset `(1, 1)` in a
3×3 grid with cell `(0, 0)` alive sets `(1, 1)`, keeps `(0, 0)`, and
leaves `(2, 1)` (the `'0'` pattern cell) dead. -/
theorem claim_C6_stamp_additive_witness :
    WF 3 [[1, 0, 0], [0, 0, 0], [0, 0, 0]] ∧
    getCell (stampPattern 3 [['1', '0']] 1 1 [[1, 0, 0], [0, 0, 0], [0, 0, 0]]) 1 1 = 1 ∧
    getCell (stampPattern 3 [['1', '0']] 1 1 [[1, 0, 0], [0, 0, 0], [0, 0, 0]]) 0 0 = 1 ∧
    getCell (stampPattern 3 [['1', '0']] 1 1 [[1, 0, 0], [0, 0, 0], [0, 0, 0]]) 2 1 = 0 := by
  have h := claim_C6_stamp_additive 3 [['1', '0']] 1 1 [[1, 0, 0], [0, 0, 0], [0, 0, 0]]
    (by decide)
  refine ⟨by decide, ?_, ?_, ?_⟩
  · exact (h.2.1 1 1 (by decide) (by decide)).mpr
      (Or.inr ⟨0, 0, by decide, by decide, by decide, by decide, by decide⟩)
  · exact (h.2.1 0 0 (by decide) (by decide)).mpr (Or.inl (by decide))
  · rw [h.2.2 2 1 ?_]
    · decide
    · rintro ⟨px, py, h1, h2, h3, h4, h5⟩
      have h1b : px < 2 := h1
      have h2b : py < 1 := h2
      interval_cases px <;> interval_cases py <;>
        first
          | exact absurd h4 (by decide)
          | exact absurd h3 (by decide)

/-! ### The binary-cells invariant (C9) and variant B's controls (C10) -/

lemma binaryGrid_createEmptyGrid (n : ℕ) : BinaryGrid (createEmptyGrid n) := by
  intro row hrow c hc
  rw [List.eq_of_mem_replicate hrow] at hc
  exact Or.inl (List.eq_of_mem_replicate hc)

lemma binaryGrid_map_range (n : ℕ) (f : ℕ → ℕ → ℕ)
    (hf : ∀ a b, f a b = 0 ∨ f a b = 1) :
    BinaryGrid ((List.range n).map (fun b => (List.range n).map (fun a => f a b))) := by
  intro row hrow c hc
  simp only [List.mem_map] at hrow
  obtain ⟨b, _, rfl⟩ := hrow
  simp only [List.mem_map] at hc
  obtain ⟨a, _, rfl⟩ := hc
  exact hf a b

lemma binaryGrid_setCellAlive {g : Grid} (hb : BinaryGrid g) (n : ℕ) (x y : ℤ) :
    BinaryGrid (setCellAlive n x y g) := by
  unfold setCellAlive
  split
  · intro row hrow c hc
    rcases List.mem_or_eq_of_mem_set hrow with h | h
    · exact hb _ h c hc
    · subst h
      rcases List.mem_or_eq_of_mem_set hc with h2 | h2
      · by_cases hy : y.toNat < g.length
        · have : g.getD y.toNat [] = g[y.toNat] := List.getD_eq_getElem _ _ hy
          rw [this] at h2
          exact hb _ (List.getElem_mem hy) c h2
        · have : g.getD y.toNat [] = [] := List.getD_eq_default _ _ (by omega)
          rw [this] at h2
          exact absurd h2 (List.not_mem_nil c)
      · exact Or.inr h2
  · exact hb

lemma binaryGrid_foldl {α : Type} (l : List α) (f : Grid → α → Grid)
    (hf : ∀ g a, BinaryGrid g → BinaryGrid (f g a)) :
    ∀ g, BinaryGrid g → BinaryGrid (l.foldl f g) := by
  induction l with
  | nil => exact fun g h => h
  | cons a l ih =>
    intro g hb
    exact ih _ (hf g a hb)

lemma binaryGrid_markList {g : Grid} (hb : BinaryGrid g) (n : ℕ) (ps : List (ℤ × ℤ)) :
    BinaryGrid (markList n ps g) :=
  binaryGrid_foldl ps _ (fun g2 p h => binaryGrid_setCellAlive h n p.1 p.2) g hb

/-- **C9**: every operation of both variants produces or preserves grids
whose cells are all 0 or 1: grid creation and the stepper produce binary
grids outright; randomization produces a binary grid for every randomness
oracle; cell setting, pattern stamping, ripple application and the click
toggle preserve binaryness. -/
theorem claim_C9_cells_binary (n : ℕ) :
    BinaryGrid (createEmptyGrid n) ∧
    (∀ g : Grid, BinaryGrid (nextGeneration n g)) ∧
    (∀ rnd, BinaryGrid (randomizeGrid n rnd)) ∧
    (∀ g : Grid, ∀ x y : ℤ, BinaryGrid g → BinaryGrid (setCellAlive n x y g)) ∧
    (∀ (g : Grid) pat ox oy, BinaryGrid g → BinaryGrid (stampPattern n pat ox oy g)) ∧
    (∀ (g : Grid) rs, BinaryGrid g → BinaryGrid (applyRipplesToGrid n rs g)) ∧
    (∀ (g : Grid) x y, BinaryGrid g → BinaryGrid (toggleCell n x y g)) := by
  refine ⟨binaryGrid_createEmptyGrid n, ?_, ?_, ?_, ?_, ?_, ?_⟩
  · intro g
    apply binaryGrid_map_range
    intro a b
    dsimp only
    split_ifs <;> simp
  · intro rnd
    apply binaryGrid_map_range
    intro a b
    split_ifs <;> simp
  · exact fun g x y hb => binaryGrid_setCellAlive hb n x y
  · intro g pat ox oy hb
    rw [stampPattern_eq_markList]
    exact binaryGrid_markList hb n _
  · intro g rs hb
    apply binaryGrid_foldl rs _ _ g hb
    intro g2 r h2
    rw [applyRipple_eq_markList]
    exact binaryGrid_markList h2 n _
  · intro g x y hb
    unfold toggleCell
    split
    · intro row hrow c hc
      rcases List.mem_or_eq_of_mem_set hrow with h | h
      · exact hb _ h c hc
      · subst h
        rcases List.mem_or_eq_of_mem_set hc with h2 | h2
        · by_cases hy : y < g.length
          · have : g.getD y [] = g[y] := List.getD_eq_getElem _ _ hy
            rw [this] at h2
            exact hb _ (List.getElem_mem hy) c h2
          · have : g.getD y [] = [] := List.getD_eq_default _ _ (by omega)
            rw [this] at h2
            exact absurd h2 (List.not_mem_nil c)
        · subst h2
          split_ifs <;> simp
    · exact hb

/-- Witness for C9: the toggle handler flips the live corner of a concrete
binary 2×2 grid and the result is still binary. -/
theorem claim_C9_cells_binary_witness :
    BinaryGrid [[1, 0], [0, 1]] ∧ BinaryGrid (toggleCell 2 0 0 [[1, 0], [0, 1]]) := by
  have h := claim_C9_cells_binary 2
  exact ⟨by decide, h.2.2.2.2.2.2 [[1, 0], [0, 1]] 0 0 (by decide)⟩

/-- **C10**: variant B's single-step control pauses the simulation
(`running = false`) in addition to advancing exactly one generation, and
the clear control pauses it in addition to replacing the grid with the
all-dead grid. -/
theorem claim_C10_stepB_clearB (n : ℕ) (s : StateB) :
    (stepBtnClick n s).running = false ∧
    (stepBtnClick n s).grid = nextGeneration n s.grid ∧
    (clearBtnClick n s).running = false ∧
    (clearBtnClick n s).grid = createEmptyGrid n ∧
    (∀ x y, getCell (clearBtnClick n s).grid x y = 0) := by
  exact ⟨rfl, rfl, rfl, rfl, fun x y => getCell_createEmptyGrid n x y⟩

/-! ### The blinker oscillates with period 2 (C8) -/

/-- When every cell of `g` is the indicator of a predicate `C` whose
support lies inside the grid, `countNeighbors` is the sum of the
indicators of `C` at the 8 neighbor positions. -/
lemma countNeighbors_indicator (n : ℕ) (g : Grid) (C : ℤ → ℤ → Prop)
    [∀ u v, Decidable (C u v)]
    (hcell : ∀ a b : ℕ, getCell g a b = if C a b then 1 else 0)
    (hbnd : ∀ u v : ℤ, C u v → 0 ≤ u ∧ u < n ∧ 0 ≤ v ∧ v < n) (x y : ℕ) :
    countNeighbors n g x y =
      (neighborOffsets.map (fun d =>
        if C ((x : ℤ) + d.1) ((y : ℤ) + d.2) then 1 else 0)).sum := by
  unfold countNeighbors
  congr 1
  apply List.map_congr_left
  intro d _
  dsimp only
  by_cases hin : 0 ≤ (x : ℤ) + d.1 ∧ (x : ℤ) + d.1 < n ∧ 0 ≤ (y : ℤ) + d.2 ∧
      (y : ℤ) + d.2 < n
  · rw [if_pos hin, hcell]
    have e1 : ((((x : ℤ) + d.1).toNat : ℤ)) = (x : ℤ) + d.1 :=
      Int.toNat_of_nonneg hin.1
    have e2 : ((((y : ℤ) + d.2).toNat : ℤ)) = (y : ℤ) + d.2 :=
      Int.toNat_of_nonneg hin.2.2.1
    rw [e1, e2]
  · rw [if_neg hin, if_neg (fun hc => hin (hbnd _ _ hc))]

lemma WF_blinkerH (n cx cy : ℕ) : WF n (blinkerH n cx cy) :=
  WF_markList _ (WF_createEmptyGrid n)

lemma WF_blinkerV (n cx cy : ℕ) : WF n (blinkerV n cx cy) :=
  WF_markList _ (WF_createEmptyGrid n)

/-- Cells of the horizontal blinker, as the indicator of the interval
condition `cx - 1 ≤ x ≤ cx + 1 ∧ y = cy` (the three marked cells). -/
lemma getCell_blinkerH {n cx cy : ℕ} (h1 : 2 ≤ cx) (h2 : cx + 2 < n)
    (h3 : 2 ≤ cy) (h4 : cy + 2 < n) (x y : ℕ) :
    getCell (blinkerH n cx cy) x y =
      if (cx : ℤ) - 1 ≤ (x : ℤ) ∧ (x : ℤ) ≤ (cx : ℤ) + 1 ∧ (y : ℤ) = (cy : ℤ)
      then 1 else 0 := by
  unfold blinkerH
  rw [getCell_markList _ (WF_createEmptyGrid n), getCell_createEmptyGrid]
  refine if_congr ?_ rfl rfl
  simp only [List.mem_cons, List.not_mem_nil, or_false, Prod.mk.injEq]
  omega

/-- Cells of the vertical blinker, as the indicator of
`x = cx ∧ cy - 1 ≤ y ≤ cy + 1`. -/
lemma getCell_blinkerV {n cx cy : ℕ} (h1 : 2 ≤ cx) (h2 : cx + 2 < n)
    (h3 : 2 ≤ cy) (h4 : cy + 2 < n) (x y : ℕ) :
    getCell (blinkerV n cx cy) x y =
      if (x : ℤ) = (cx : ℤ) ∧ (cy : ℤ) - 1 ≤ (y : ℤ) ∧ (y : ℤ) ≤ (cy : ℤ) + 1
      then 1 else 0 := by
  unfold blinkerV
  rw [getCell_markList _ (WF_createEmptyGrid n), getCell_createEmptyGrid]
  refine if_congr ?_ rfl rfl
  simp only [List.mem_cons, List.not_mem_nil, or_false, Prod.mk.injEq]
  omega

/-- The Game of Life update written as an `if` cascade equals `r` whenever
the three defining implications hold. -/
lemma life_rule_ite (a s r : ℕ)
    (h : (a = 1 ∧ (s = 2 ∨ s = 3) → r = 1) ∧
         (¬(a = 1 ∧ (s = 2 ∨ s = 3)) → ¬a = 1 ∧ s = 3 → r = 1) ∧
         (¬(a = 1 ∧ (s = 2 ∨ s = 3)) → ¬(¬a = 1 ∧ s = 3) → r = 0)) :
    (if a = 1 ∧ (s = 2 ∨ s = 3) then (1 : ℕ) else if ¬a = 1 ∧ s = 3 then 1 else 0)
      = r := by
  obtain ⟨hy1, hy2, hy3⟩ := h
  split_ifs with hA hB
  · exact (hy1 hA).symm
  · exact (hy2 hA hB).symm
  · exact (hy3 hA hB).symm

set_option maxHeartbeats 2000000 in
/-- Arithmetic core of the blinker step, in coordinates relative to the
center (`w = x - cx`, `z = y - cy`): if the cell and its 8 neighbors carry
the indicator of the horizontal triple and `r` carries the indicator of
the vertical triple, then the Game of Life rule on the cell and the
neighbor sum yields `r`.  Stated as three implications so that a single
case analysis settles it. -/
lemma blinker_cellHV (w z : ℤ) (a k1 k2 k3 k4 k5 k6 k7 k8 r : ℕ)
    (ha : a = 1 ↔ (-1 ≤ w ∧ w ≤ 1 ∧ z = 0)) (ha2 : a ≤ 1)
    (hk1 : k1 = 1 ↔ (-1 ≤ w + -1 ∧ w + -1 ≤ 1 ∧ z + -1 = 0)) (hk1b : k1 ≤ 1)
    (hk2 : k2 = 1 ↔ (-1 ≤ w ∧ w ≤ 1 ∧ z + -1 = 0)) (hk2b : k2 ≤ 1)
    (hk3 : k3 = 1 ↔ (-1 ≤ w + 1 ∧ w + 1 ≤ 1 ∧ z + -1 = 0)) (hk3b : k3 ≤ 1)
    (hk4 : k4 = 1 ↔ (-1 ≤ w + -1 ∧ w + -1 ≤ 1 ∧ z = 0)) (hk4b : k4 ≤ 1)
    (hk5 : k5 = 1 ↔ (-1 ≤ w + 1 ∧ w + 1 ≤ 1 ∧ z = 0)) (hk5b : k5 ≤ 1)
    (hk6 : k6 = 1 ↔ (-1 ≤ w + -1 ∧ w + -1 ≤ 1 ∧ z + 1 = 0)) (hk6b : k6 ≤ 1)
    (hk7 : k7 = 1 ↔ (-1 ≤ w ∧ w ≤ 1 ∧ z + 1 = 0)) (hk7b : k7 ≤ 1)
    (hk8 : k8 = 1 ↔ (-1 ≤ w + 1 ∧ w + 1 ≤ 1 ∧ z + 1 = 0)) (hk8b : k8 ≤ 1)
    (hr : r = 1 ↔ (w = 0 ∧ -1 ≤ z ∧ z ≤ 1)) (hrb : r ≤ 1) :
    (a = 1 ∧ ((k1 + (k2 + (k3 + (k4 + (k5 + (k6 + (k7 + (k8 + 0)))))))) = 2 ∨ (k1 + (k2 + (k3 + (k4 + (k5 + (k6 + (k7 + (k8 + 0)))))))) = 3) → r = 1) ∧
    (¬(a = 1 ∧ ((k1 + (k2 + (k3 + (k4 + (k5 + (k6 + (k7 + (k8 + 0)))))))) = 2 ∨ (k1 + (k2 + (k3 + (k4 + (k5 + (k6 + (k7 + (k8 + 0)))))))) = 3)) → ¬a = 1 ∧ (k1 + (k2 + (k3 + (k4 + (k5 + (k6 + (k7 + (k8 + 0)))))))) = 3 → r = 1) ∧
    (¬(a = 1 ∧ ((k1 + (k2 + (k3 + (k4 + (k5 + (k6 + (k7 + (k8 + 0)))))))) = 2 ∨ (k1 + (k2 + (k3 + (k4 + (k5 + (k6 + (k7 + (k8 + 0)))))))) = 3)) → ¬(¬a = 1 ∧ (k1 + (k2 + (k3 + (k4 + (k5 + (k6 + (k7 + (k8 + 0)))))))) = 3) → r = 0) := by
  by_cases hw : -2 ≤ w ∧ w ≤ 2
  · by_cases hz : -2 ≤ z ∧ z ≤ 2
    · obtain ⟨hw1, hw2⟩ := hw
      obtain ⟨hz1, hz2⟩ := hz
      interval_cases w <;> interval_cases z <;>
        simp at ha hk1 hk2 hk3 hk4 hk5 hk6 hk7 hk8 hr <;> omega
    ·
      have ea : a = 0 := by clear hk1 hk2 hk3 hk4 hk5 hk6 hk7 hk8 hr hk1b hk2b hk3b hk4b hk5b hk6b hk7b hk8b hrb; omega
      have ek1 : k1 = 0 := by clear ha hk2 hk3 hk4 hk5 hk6 hk7 hk8 hr ha2 hk2b hk3b hk4b hk5b hk6b hk7b hk8b hrb; omega
      have ek2 : k2 = 0 := by clear ha hk1 hk3 hk4 hk5 hk6 hk7 hk8 hr ha2 hk1b hk3b hk4b hk5b hk6b hk7b hk8b hrb; omega
      have ek3 : k3 = 0 := by clear ha hk1 hk2 hk4 hk5 hk6 hk7 hk8 hr ha2 hk1b hk2b hk4b hk5b hk6b hk7b hk8b hrb; omega
      have ek4 : k4 = 0 := by clear ha hk1 hk2 hk3 hk5 hk6 hk7 hk8 hr ha2 hk1b hk2b hk3b hk5b hk6b hk7b hk8b hrb; omega
      have ek5 : k5 = 0 := by clear ha hk1 hk2 hk3 hk4 hk6 hk7 hk8 hr ha2 hk1b hk2b hk3b hk4b hk6b hk7b hk8b hrb; omega
      have ek6 : k6 = 0 := by clear ha hk1 hk2 hk3 hk4 hk5 hk7 hk8 hr ha2 hk1b hk2b hk3b hk4b hk5b hk7b hk8b hrb; omega
      have ek7 : k7 = 0 := by clear ha hk1 hk2 hk3 hk4 hk5 hk6 hk8 hr ha2 hk1b hk2b hk3b hk4b hk5b hk6b hk8b hrb; omega
      have ek8 : k8 = 0 := by clear ha hk1 hk2 hk3 hk4 hk5 hk6 hk7 hr ha2 hk1b hk2b hk3b hk4b hk5b hk6b hk7b hrb; omega
      have er : r = 0 := by clear ha hk1 hk2 hk3 hk4 hk5 hk6 hk7 hk8 ha2 hk1b hk2b hk3b hk4b hk5b hk6b hk7b hk8b; omega
      clear ha hk1 hk2 hk3 hk4 hk5 hk6 hk7 hk8 hr
      omega
  ·
      have ea : a = 0 := by clear hk1 hk2 hk3 hk4 hk5 hk6 hk7 hk8 hr hk1b hk2b hk3b hk4b hk5b hk6b hk7b hk8b hrb; omega
      have ek1 : k1 = 0 := by clear ha hk2 hk3 hk4 hk5 hk6 hk7 hk8 hr ha2 hk2b hk3b hk4b hk5b hk6b hk7b hk8b hrb; omega
      have ek2 : k2 = 0 := by clear ha hk1 hk3 hk4 hk5 hk6 hk7 hk8 hr ha2 hk1b hk3b hk4b hk5b hk6b hk7b hk8b hrb; omega
      have ek3 : k3 = 0 := by clear ha hk1 hk2 hk4 hk5 hk6 hk7 hk8 hr ha2 hk1b hk2b hk4b hk5b hk6b hk7b hk8b hrb; omega
      have ek4 : k4 = 0 := by clear ha hk1 hk2 hk3 hk5 hk6 hk7 hk8 hr ha2 hk1b hk2b hk3b hk5b hk6b hk7b hk8b hrb; omega
      have ek5 : k5 = 0 := by clear ha hk1 hk2 hk3 hk4 hk6 hk7 hk8 hr ha2 hk1b hk2b hk3b hk4b hk6b hk7b hk8b hrb; omega
      have ek6 : k6 = 0 := by clear ha hk1 hk2 hk3 hk4 hk5 hk7 hk8 hr ha2 hk1b hk2b hk3b hk4b hk5b hk7b hk8b hrb; omega
      have ek7 : k7 = 0 := by clear ha hk1 hk2 hk3 hk4 hk5 hk6 hk8 hr ha2 hk1b hk2b hk3b hk4b hk5b hk6b hk8b hrb; omega
      have ek8 : k8 = 0 := by clear ha hk1 hk2 hk3 hk4 hk5 hk6 hk7 hr ha2 hk1b hk2b hk3b hk4b hk5b hk6b hk7b hrb; omega
      have er : r = 0 := by clear ha hk1 hk2 hk3 hk4 hk5 hk6 hk7 hk8 ha2 hk1b hk2b hk3b hk4b hk5b hk6b hk7b hk8b; omega
      clear ha hk1 hk2 hk3 hk4 hk5 hk6 hk7 hk8 hr
      omega

set_option maxHeartbeats 2000000 in
/-- Arithmetic core of the blinker step in the other direction: from the
vertical triple back to the horizontal one. -/
lemma blinker_cellVH (w z : ℤ) (a k1 k2 k3 k4 k5 k6 k7 k8 r : ℕ)
    (ha : a = 1 ↔ (w = 0 ∧ -1 ≤ z ∧ z ≤ 1)) (ha2 : a ≤ 1)
    (hk1 : k1 = 1 ↔ (w + -1 = 0 ∧ -1 ≤ z + -1 ∧ z + -1 ≤ 1)) (hk1b : k1 ≤ 1)
    (hk2 : k2 = 1 ↔ (w = 0 ∧ -1 ≤ z + -1 ∧ z + -1 ≤ 1)) (hk2b : k2 ≤ 1)
    (hk3 : k3 = 1 ↔ (w + 1 = 0 ∧ -1 ≤ z + -1 ∧ z + -1 ≤ 1)) (hk3b : k3 ≤ 1)
    (hk4 : k4 = 1 ↔ (w + -1 = 0 ∧ -1 ≤ z ∧ z ≤ 1)) (hk4b : k4 ≤ 1)
    (hk5 : k5 = 1 ↔ (w + 1 = 0 ∧ -1 ≤ z ∧ z ≤ 1)) (hk5b : k5 ≤ 1)
    (hk6 : k6 = 1 ↔ (w + -1 = 0 ∧ -1 ≤ z + 1 ∧ z + 1 ≤ 1)) (hk6b : k6 ≤ 1)
    (hk7 : k7 = 1 ↔ (w = 0 ∧ -1 ≤ z + 1 ∧ z + 1 ≤ 1)) (hk7b : k7 ≤ 1)
    (hk8 : k8 = 1 ↔ (w + 1 = 0 ∧ -1 ≤ z + 1 ∧ z + 1 ≤ 1)) (hk8b : k8 ≤ 1)
    (hr : r = 1 ↔ (-1 ≤ w ∧ w ≤ 1 ∧ z = 0)) (hrb : r ≤ 1) :
    (a = 1 ∧ ((k1 + (k2 + (k3 + (k4 + (k5 + (k6 + (k7 + (k8 + 0)))))))) = 2 ∨ (k1 + (k2 + (k3 + (k4 + (k5 + (k6 + (k7 + (k8 + 0)))))))) = 3) → r = 1) ∧
    (¬(a = 1 ∧ ((k1 + (k2 + (k3 + (k4 + (k5 + (k6 + (k7 + (k8 + 0)))))))) = 2 ∨ (k1 + (k2 + (k3 + (k4 + (k5 + (k6 + (k7 + (k8 + 0)))))))) = 3)) → ¬a = 1 ∧ (k1 + (k2 + (k3 + (k4 + (k5 + (k6 + (k7 + (k8 + 0)))))))) = 3 → r = 1) ∧
    (¬(a = 1 ∧ ((k1 + (k2 + (k3 + (k4 + (k5 + (k6 + (k7 + (k8 + 0)))))))) = 2 ∨ (k1 + (k2 + (k3 + (k4 + (k5 + (k6 + (k7 + (k8 + 0)))))))) = 3)) → ¬(¬a = 1 ∧ (k1 + (k2 + (k3 + (k4 + (k5 + (k6 + (k7 + (k8 + 0)))))))) = 3) → r = 0) := by
  by_cases hw : -2 ≤ w ∧ w ≤ 2
  · by_cases hz : -2 ≤ z ∧ z ≤ 2
    · obtain ⟨hw1, hw2⟩ := hw
      obtain ⟨hz1, hz2⟩ := hz
      interval_cases w <;> interval_cases z <;>
        simp at ha hk1 hk2 hk3 hk4 hk5 hk6 hk7 hk8 hr <;> omega
    ·
      have ea : a = 0 := by clear hk1 hk2 hk3 hk4 hk5 hk6 hk7 hk8 hr hk1b hk2b hk3b hk4b hk5b hk6b hk7b hk8b hrb; omega
      have ek1 : k1 = 0 := by clear ha hk2 hk3 hk4 hk5 hk6 hk7 hk8 hr ha2 hk2b hk3b hk4b hk5b hk6b hk7b hk8b hrb; omega
      have ek2 : k2 = 0 := by clear ha hk1 hk3 hk4 hk5 hk6 hk7 hk8 hr ha2 hk1b hk3b hk4b hk5b hk6b hk7b hk8b hrb; omega
      have ek3 : k3 = 0 := by clear ha hk1 hk2 hk4 hk5 hk6 hk7 hk8 hr ha2 hk1b hk2b hk4b hk5b hk6b hk7b hk8b hrb; omega
      have ek4 : k4 = 0 := by clear ha hk1 hk2 hk3 hk5 hk6 hk7 hk8 hr ha2 hk1b hk2b hk3b hk5b hk6b hk7b hk8b hrb; omega
      have ek5 : k5 = 0 := by clear ha hk1 hk2 hk3 hk4 hk6 hk7 hk8 hr ha2 hk1b hk2b hk3b hk4b hk6b hk7b hk8b hrb; omega
      have ek6 : k6 = 0 := by clear ha hk1 hk2 hk3 hk4 hk5 hk7 hk8 hr ha2 hk1b hk2b hk3b hk4b hk5b hk7b hk8b hrb; omega
      have ek7 : k7 = 0 := by clear ha hk1 hk2 hk3 hk4 hk5 hk6 hk8 hr ha2 hk1b hk2b hk3b hk4b hk5b hk6b hk8b hrb; omega
      have ek8 : k8 = 0 := by clear ha hk1 hk2 hk3 hk4 hk5 hk6 hk7 hr ha2 hk1b hk2b hk3b hk4b hk5b hk6b hk7b hrb; omega
      have er : r = 0 := by clear ha hk1 hk2 hk3 hk4 hk5 hk6 hk7 hk8 ha2 hk1b hk2b hk3b hk4b hk5b hk6b hk7b hk8b; omega
      clear ha hk1 hk2 hk3 hk4 hk5 hk6 hk7 hk8 hr
      omega
  ·
      have ea : a = 0 := by clear hk1 hk2 hk3 hk4 hk5 hk6 hk7 hk8 hr hk1b hk2b hk3b hk4b hk5b hk6b hk7b hk8b hrb; omega
      have ek1 : k1 = 0 := by clear ha hk2 hk3 hk4 hk5 hk6 hk7 hk8 hr ha2 hk2b hk3b hk4b hk5b hk6b hk7b hk8b hrb; omega
      have ek2 : k2 = 0 := by clear ha hk1 hk3 hk4 hk5 hk6 hk7 hk8 hr ha2 hk1b hk3b hk4b hk5b hk6b hk7b hk8b hrb; omega
      have ek3 : k3 = 0 := by clear ha hk1 hk2 hk4 hk5 hk6 hk7 hk8 hr ha2 hk1b hk2b hk4b hk5b hk6b hk7b hk8b hrb; omega
      have ek4 : k4 = 0 := by clear ha hk1 hk2 hk3 hk5 hk6 hk7 hk8 hr ha2 hk1b hk2b hk3b hk5b hk6b hk7b hk8b hrb; omega
      have ek5 : k5 = 0 := by clear ha hk1 hk2 hk3 hk4 hk6 hk7 hk8 hr ha2 hk1b hk2b hk3b hk4b hk6b hk7b hk8b hrb; omega
      have ek6 : k6 = 0 := by clear ha hk1 hk2 hk3 hk4 hk5 hk7 hk8 hr ha2 hk1b hk2b hk3b hk4b hk5b hk7b hk8b hrb; omega
      have ek7 : k7 = 0 := by clear ha hk1 hk2 hk3 hk4 hk5 hk6 hk8 hr ha2 hk1b hk2b hk3b hk4b hk5b hk6b hk8b hrb; omega
      have ek8 : k8 = 0 := by clear ha hk1 hk2 hk3 hk4 hk5 hk6 hk7 hr ha2 hk1b hk2b hk3b hk4b hk5b hk6b hk7b hrb; omega
      have er : r = 0 := by clear ha hk1 hk2 hk3 hk4 hk5 hk6 hk7 hk8 ha2 hk1b hk2b hk3b hk4b hk5b hk6b hk7b hk8b; omega
      clear ha hk1 hk2 hk3 hk4 hk5 hk6 hk7 hk8 hr
      omega


lemma nextGeneration_blinkerH {n cx cy : ℕ} (h1 : 2 ≤ cx) (h2 : cx + 2 < n)
    (h3 : 2 ≤ cy) (h4 : cy + 2 < n) :
    nextGeneration n (blinkerH n cx cy) = blinkerV n cx cy := by
  apply grid_ext (WF_nextGeneration n _) (WF_blinkerV n cx cy)
  intro x y hx hy
  rw [getCell_nextGeneration n _ hx hy,
    countNeighbors_indicator n _
      (fun u v => (cx : ℤ) - 1 ≤ u ∧ u ≤ (cx : ℤ) + 1 ∧ v = (cy : ℤ))
      (getCell_blinkerH h1 h2 h3 h4) (fun u v hc => by omega) x y,
    getCell_blinkerH h1 h2 h3 h4, getCell_blinkerV h1 h2 h3 h4]
  simp only [neighborOffsets, List.map_cons, List.map_nil, List.sum_cons, List.sum_nil]
  apply life_rule_ite
  exact blinker_cellHV ((x : ℤ) - cx) ((y : ℤ) - cy) _ _ _ _ _ _ _ _ _ _
    (by split_ifs <;> simp_all <;> omega)
    (by split_ifs <;> simp_all <;> omega)
    (by split_ifs <;> simp_all <;> omega)
    (by split_ifs <;> simp_all <;> omega)
    (by split_ifs <;> simp_all <;> omega)
    (by split_ifs <;> simp_all <;> omega)
    (by split_ifs <;> simp_all <;> omega)
    (by split_ifs <;> simp_all <;> omega)
    (by split_ifs <;> simp_all <;> omega)
    (by split_ifs <;> simp_all <;> omega)
    (by split_ifs <;> simp_all <;> omega)
    (by split_ifs <;> simp_all <;> omega)
    (by split_ifs <;> simp_all <;> omega)
    (by split_ifs <;> simp_all <;> omega)
    (by split_ifs <;> simp_all <;> omega)
    (by split_ifs <;> simp_all <;> omega)
    (by split_ifs <;> simp_all <;> omega)
    (by split_ifs <;> simp_all <;> omega)
    (by split_ifs <;> simp_all <;> omega)
    (by split_ifs <;> simp_all <;> omega)

lemma nextGeneration_blinkerV {n cx cy : ℕ} (h1 : 2 ≤ cx) (h2 : cx + 2 < n)
    (h3 : 2 ≤ cy) (h4 : cy + 2 < n) :
    nextGeneration n (blinkerV n cx cy) = blinkerH n cx cy := by
  apply grid_ext (WF_nextGeneration n _) (WF_blinkerH n cx cy)
  intro x y hx hy
  rw [getCell_nextGeneration n _ hx hy,
    countNeighbors_indicator n _
      (fun u v => u = (cx : ℤ) ∧ (cy : ℤ) - 1 ≤ v ∧ v ≤ (cy : ℤ) + 1)
      (getCell_blinkerV h1 h2 h3 h4) (fun u v hc => by omega) x y,
    getCell_blinkerV h1 h2 h3 h4, getCell_blinkerH h1 h2 h3 h4]
  simp only [neighborOffsets, List.map_cons, List.map_nil, List.sum_cons, List.sum_nil]
  apply life_rule_ite
  exact blinker_cellVH ((x : ℤ) - cx) ((y : ℤ) - cy) _ _ _ _ _ _ _ _ _ _
    (by split_ifs <;> simp_all <;> omega)
    (by split_ifs <;> simp_all <;> omega)
    (by split_ifs <;> simp_all <;> omega)
    (by split_ifs <;> simp_all <;> omega)
    (by split_ifs <;> simp_all <;> omega)
    (by split_ifs <;> simp_all <;> omega)
    (by split_ifs <;> simp_all <;> omega)
    (by split_ifs <;> simp_all <;> omega)
    (by split_ifs <;> simp_all <;> omega)
    (by split_ifs <;> simp_all <;> omega)
    (by split_ifs <;> simp_all <;> omega)
    (by split_ifs <;> simp_all <;> omega)
    (by split_ifs <;> simp_all <;> omega)
    (by split_ifs <;> simp_all <;> omega)
    (by split_ifs <;> simp_all <;> omega)
    (by split_ifs <;> simp_all <;> omega)
    (by split_ifs <;> simp_all <;> omega)
    (by split_ifs <;> simp_all <;> omega)
    (by split_ifs <;> simp_all <;> omega)
    (by split_ifs <;> simp_all <;> omega)

/-- **C8**: on every sufficiently large otherwise-empty grid (the three
blinker cells and all their step-relevant neighbors away from the
border), the horizontal blinker at `(cx, cy)` steps to the vertical
blinker through the same center, and a second step restores the original
grid: `step (step G) = G`. -/
theorem claim_C8_blinker_period_two (n cx cy : ℕ) (h1 : 2 ≤ cx) (h2 : cx + 2 < n)
    (h3 : 2 ≤ cy) (h4 : cy + 2 < n) :
    nextGeneration n (blinkerH n cx cy) = blinkerV n cx cy ∧
    nextGeneration n (nextGeneration n (blinkerH n cx cy)) = blinkerH n cx cy := by
  have hHV := nextGeneration_blinkerH h1 h2 h3 h4
  have hVH := nextGeneration_blinkerV h1 h2 h3 h4
  exact ⟨hHV, by rw [hHV, hVH]⟩

/-- Witness for C8: a blinker centered at `(2, 2)` on a 5×5 grid. -/
theorem claim_C8_blinker_period_two_witness :
    2 ≤ 2 ∧ (2 : ℕ) + 2 < 5 ∧
    nextGeneration 5 (nextGeneration 5 (blinkerH 5 2 2)) = blinkerH 5 2 2 := by
  have h := claim_C8_blinker_period_two 5 2 2 (by decide) (by decide) (by decide) (by decide)
  exact ⟨by decide, by decide, h.2⟩

end Automata
